import Mathlib

/-!
Shallow embedding of the OTP password-reset backend (otpStore.js, the
single-entry JSON-blob store variant that the spec adopts as canonical,
and the POST /auth/otp/verify and /auth/otp/start route logic of
server.js), together with theorems settling the frozen claims.

Timestamps and millisecond durations are integers; the store is modelled
as a map from key to an optional pair of stored value and absolute redis
expiry instant (set with px ttl at time now stores expiry now + px, and a
get at time t sees the value only while t < expiry, matching redis lazy
expiry).  Each operation takes the current time `now` (Date.now()) as an
explicit argument and returns the updated store.
-/

namespace Foddie

/-- Configured TTL of an OTP entry (default 10 minutes), OTP_TTL_MS. -/
def OTP_TTL_MS : Int := 10 * 60000

/-- Configured resend cooldown (default 30 s), RESEND_COOLDOWN_MS. -/
def RESEND_COOLDOWN_MS : Int := 30000

/-- Configured resend cap (default 5), MAX_RESENDS. -/
def MAX_RESENDS : Nat := 5

/-- Attempt cap hardcoded as the literal 5 in the verify route
(`if (entry.attempts > 5)`). -/
def maxVerifyAttempts : Nat := 5

/-- An OTP entry as built by putOTP: destination email, bcrypt hash of the
code, absolute expiry instant, verification-attempt counter, timestamp of
the most recent delivery, and resend counter. -/
structure Entry where
  email : String
  codeHash : String
  expiresAt : Int
  attempts : Nat
  lastSentAt : Int
  resendCount : Nat
deriving DecidableEq, Repr

/-- A raw value stored under a redis key: either a well-formed JSON
serialisation of an entry, or a malformed value (unparseable string or a
non-object legacy value) that JSON.parse / coerceEntry rejects. -/
inductive RawVal where
  | entryVal : Entry → RawVal
  | malformed : RawVal
deriving DecidableEq, Repr

/-- The external expiring key-value store: each key optionally holds a raw
value together with its absolute redis expiry instant. -/
def Store : Type := String → Option (RawVal × Int)

/-- redis.get at time now: the value is visible only while now is before
its absolute expiry (redis px semantics with lazy expiry). -/
def Store.get (s : Store) (now : Int) (k : String) : Option RawVal :=
  match s k with
  | none => none
  | some (v, ex) => if now < ex then some v else none

/-- redis.set key value { px } at time now: stores the value with absolute
expiry now + px. -/
def Store.setPx (s : Store) (now : Int) (k : String) (v : RawVal) (px : Int) : Store :=
  fun k2 => if k2 = k then some (v, now + px) else s k2

/-- redis.del key. -/
def Store.del (s : Store) (k : String) : Store :=
  fun k2 => if k2 = k then none else s k2

/-- keyFor: the redis key for a subject, otp:userId. -/
def keyFor (userId : String) : String := "otp:" ++ userId

/-- coerceEntry: a well-formed stored value parses to its entry; a
malformed one yields null. -/
def coerceEntry : RawVal → Option Entry
  | RawVal.entryVal e => some e
  | RawVal.malformed => none

/-- Model of bcrypt.hash with a fixed salt tag: one-way in the real
library; here an injective tagging so that compare succeeds exactly on
the hashed code. -/
def bcryptHash (code : String) : String := "bcrypt2a10$" ++ code

/-- Model of bcrypt.compare: the candidate matches the stored hash
exactly when hashing the candidate reproduces it. -/
def bcryptCompare (candidate h : String) : Bool := bcryptHash candidate == h

/-- saveOTPEntry: persist an entry back with its remaining TTL
(max 0 (expiresAt - now)); when no time remains, delete the key instead
of writing. -/
def saveOTPEntry (s : Store) (now : Int) (userId : String) (entry : Entry) : Store :=
  let remaining := max 0 (entry.expiresAt - now)
  if remaining ≤ 0 then Store.del s (keyFor userId)
  else Store.setPx s now (keyFor userId) (RawVal.entryVal entry) remaining

/-- putOTP: build a fresh entry (attempts 0, resendCount 0, lastSentAt
now, expiresAt now + ttl) whose codeHash is the bcrypt hash of the code,
and persist it with px OTP_TTL_MS.  Returns the entry. -/
def putOTP (s : Store) (now : Int) (userId email code : String) : Entry × Store :=
  let entry : Entry :=
    { email := email
      codeHash := bcryptHash code
      expiresAt := now + OTP_TTL_MS
      attempts := 0
      lastSentAt := now
      resendCount := 0 }
  (entry, Store.setPx s now (keyFor userId) (RawVal.entryVal entry) OTP_TTL_MS)

/-- getOTP: read the raw value; a missing value is absence; a malformed
value is deleted and treated as absence; an entry past its expiresAt is
deleted and treated as absence; otherwise the entry is returned.  Returns
the result together with the possibly self-healed store. -/
def getOTP (s : Store) (now : Int) (userId : String) : Option Entry × Store :=
  match Store.get s now (keyFor userId) with
  | none => (none, s)
  | some rv =>
    match coerceEntry rv with
    | none => (none, Store.del s (keyFor userId))
    | some entry =>
      if now > entry.expiresAt then (none, Store.del s (keyFor userId))
      else (some entry, s)

/-- delOTP: unconditional delete of the subject key. -/
def delOTP (s : Store) (userId : String) : Store :=
  Store.del s (keyFor userId)

/-- Result of canResend. -/
inductive ResendGate where
  | ok : ResendGate
  | cooldown : Int → ResendGate
  | limit : ResendGate
deriving DecidableEq, Repr

/-- canResend: allowed when getOTP finds no live entry; else denied with
reason cooldown and the exact remaining milliseconds while
now - lastSentAt < RESEND_COOLDOWN_MS; else denied with reason limit when
resendCount has reached MAX_RESENDS; else allowed.  The store component
carries any self-healing getOTP performed. -/
def canResend (s : Store) (now : Int) (userId : String) : ResendGate × Store :=
  match getOTP s now userId with
  | (none, s1) => (ResendGate.ok, s1)
  | (some entry, s1) =>
    if now - entry.lastSentAt < RESEND_COOLDOWN_MS then
      (ResendGate.cooldown (RESEND_COOLDOWN_MS - (now - entry.lastSentAt)), s1)
    else if MAX_RESENDS ≤ entry.resendCount then
      (ResendGate.limit, s1)
    else (ResendGate.ok, s1)

/-- markResent: fetch the live entry (no-op when absent), bump
resendCount, stamp lastSentAt with now, and persist via saveOTPEntry with
the remaining TTL. -/
def markResent (s : Store) (now : Int) (userId : String) : Store :=
  match getOTP s now userId with
  | (none, s1) => s1
  | (some entry, s1) =>
    saveOTPEntry s1 now userId
      { entry with resendCount := entry.resendCount + 1, lastSentAt := now }

/-- Outcome of the POST /auth/otp/verify route body (after input
validation): the error string of the JSON response, or success. -/
inductive VerifyResult where
  | expired : VerifyResult
  | tooManyAttempts : VerifyResult
  | invalidCode : VerifyResult
  | updateFailed : VerifyResult
  | success : VerifyResult
deriving DecidableEq, Repr

/-- The POST /auth/otp/verify route logic of server.js: read the entry
(absent means expired); increment and persist attempts; past the cap of
maxVerifyAttempts delete and fail with too_many_attempts; compare the
candidate against the stored hash (mismatch keeps the entry); run the
Appwrite password update, whose success is the updateOk argument (a
failure returns 500 and keeps the entry); only then delete the entry and
succeed. -/
def verifyRoute (s : Store) (now : Int) (userId otp : String) (updateOk : Bool) :
    VerifyResult × Store :=
  match getOTP s now userId with
  | (none, s1) => (VerifyResult.expired, s1)
  | (some entry0, s1) =>
    let entry := { entry0 with attempts := entry0.attempts + 1 }
    let s2 := saveOTPEntry s1 now userId entry
    if maxVerifyAttempts < entry.attempts then
      (VerifyResult.tooManyAttempts, delOTP s2 userId)
    else if ¬ bcryptCompare otp entry.codeHash then
      (VerifyResult.invalidCode, s2)
    else if ¬ updateOk then
      (VerifyResult.updateFailed, s2)
    else
      (VerifyResult.success, delOTP s2 userId)

/-- Model of one draw of Math.floor(Math.random() * 900000): an arbitrary
natural reduced into the range 0..899999 that the floor of the scaled
uniform draw ranges over. -/
def randFloor (m : Nat) : Nat := m % 900000

/-- The numeric value of a generated code,
Math.floor(100000 + Math.random() * 900000). -/
def otpCodeVal (m : Nat) : Nat := 100000 + randFloor m

/-- Model of the JS String(n) decimal rendering of a natural number:
its base-10 digits, most significant first. -/
def decimalString (n : Nat) : String :=
  String.mk (((Nat.digits 10 n).reverse).map Nat.digitChar)

/-- The generated code string of the /auth/otp/start route,
String(Math.floor(100000 + Math.random() * 900000)). -/
def otpCode (m : Nat) : String := decimalString (otpCodeVal m)

/-- A concrete live entry used by witnesses: issued at time 0 with a ttl
of OTP_TTL_MS, code 123456, never resent, never attempted. -/
def demoEntry : Entry :=
  { email := "a@x.com"
    codeHash := bcryptHash "123456"
    expiresAt := 600000
    attempts := 0
    lastSentAt := 0
    resendCount := 0 }

/-- A concrete store holding demoEntry under the key of subject u1 with
redis expiry 600000, as putOTP at time 0 would leave it. -/
def demoStore : Store :=
  fun k => if k = keyFor "u1" then some (RawVal.entryVal demoEntry, 600000) else none

/-- A concrete store holding a malformed (unparseable) value under the
key of subject u1 while its redis expiry is still in the future. -/
def badStore : Store :=
  fun k => if k = keyFor "u1" then some (RawVal.malformed, 600000) else none

/-! Helper lemmas about the store primitives and getOTP. -/

theorem Store.get_del_self (s : Store) (now : Int) (k : String) :
    Store.get (Store.del s k) now k = none := by
  simp [Store.get, Store.del]

theorem Store.get_setPx_self (s : Store) (now t : Int) (k : String) (v : RawVal) (px : Int) :
    Store.get (Store.setPx s now k v px) t k = if t < now + px then some v else none := by
  simp [Store.get, Store.setPx]

theorem getOTP_fst_some {s : Store} {now : Int} {uid : String} {e : Entry}
    (h : (getOTP s now uid).1 = some e) :
    Store.get s now (keyFor uid) = some (RawVal.entryVal e) ∧ now ≤ e.expiresAt ∧
      (getOTP s now uid).2 = s := by
  unfold getOTP at h ⊢
  cases hg : Store.get s now (keyFor uid) with
  | none => rw [hg] at h; simp at h
  | some rv =>
    rw [hg] at h
    cases rv with
    | malformed => simp [coerceEntry] at h
    | entryVal e0 =>
      simp only [coerceEntry] at h
      by_cases hexp : now > e0.expiresAt
      · simp [hexp] at h
      · have hle : now ≤ e0.expiresAt := le_of_not_lt hexp
        simp [hexp] at h ⊢
        subst h
        exact ⟨rfl, hle, by simp [coerceEntry, hexp]⟩

theorem getOTP_of_store_some {s : Store} {now : Int} {uid : String} {e : Entry}
    (hg : Store.get s now (keyFor uid) = some (RawVal.entryVal e))
    (hexp : now ≤ e.expiresAt) :
    getOTP s now uid = (some e, s) := by
  unfold getOTP
  rw [hg]
  simp only [coerceEntry]
  have : ¬ now > e.expiresAt := by omega
  simp [this]

theorem getOTP_of_store_none {s : Store} {now : Int} {uid : String}
    (hg : Store.get s now (keyFor uid) = none) :
    getOTP s now uid = (none, s) := by
  unfold getOTP
  rw [hg]

theorem getOTP_fst_none {s : Store} {now : Int} {uid : String}
    (h : (getOTP s now uid).1 = none) :
    Store.get (getOTP s now uid).2 now (keyFor uid) = none := by
  unfold getOTP at h ⊢
  cases hg : Store.get s now (keyFor uid) with
  | none => simpa using hg
  | some rv =>
    rw [hg] at h
    cases rv with
    | malformed => simp [coerceEntry, Store.get_del_self]
    | entryVal e0 =>
      simp only [coerceEntry] at h ⊢
      by_cases hexp : now > e0.expiresAt
      · simp [hexp, Store.get_del_self]
      · simp [hexp] at h

/-! Claim theorems. -/

/-- Claim C2: for every subject and store state, fetch (getOTP) never
returns an entry whose expiresAt lies strictly in the past; and whenever
it returns absent (stored value missing, expired, or unparseable), the
stored value for the subject is gone from the resulting store (either it
was never visible or it has been deleted as a side effect).  getOTP is a
total function, so it never throws. -/
theorem getOTP_absent_or_live (s : Store) (now : Int) (uid : String) :
    (∀ e : Entry, (getOTP s now uid).1 = some e → now ≤ e.expiresAt) ∧
    ((getOTP s now uid).1 = none →
      Store.get (getOTP s now uid).2 now (keyFor uid) = none) := by
  constructor
  · intro e h
    exact (getOTP_fst_some h).2.1
  · intro h
    exact getOTP_fst_none h

/-- Witness for C2 at a concrete store holding a malformed value: the
fetch result is absent, and the stored value has been purged. -/
theorem getOTP_absent_or_live_witness :
    ((getOTP (fun k => if k = "otp:u1" then some (RawVal.malformed, 50) else none)
        7 "u1").1 = none) ∧
    Store.get ((getOTP (fun k => if k = "otp:u1" then some (RawVal.malformed, 50) else none)
        7 "u1")).2 7 (keyFor "u1") = none := by
  refine ⟨by decide, ?_⟩
  exact (getOTP_absent_or_live
    (fun k => if k = "otp:u1" then some (RawVal.malformed, 50) else none) 7 "u1").2
    (by decide)

/-- Claim C9: immediately after issue (putOTP), fetch returns the fresh
entry with attempts 0, resendCount 0, lastSentAt equal to the issuance
time, and expiresAt minus the issuance time equal to OTP_TTL_MS; and the
store holds it under the subject key with redis expiry exactly ttl from
issuance. -/
theorem putOTP_then_getOTP (s : Store) (now : Int) (uid email code : String) :
    (getOTP (putOTP s now uid email code).2 now uid).1 = some (putOTP s now uid email code).1 ∧
    (putOTP s now uid email code).1.attempts = 0 ∧
    (putOTP s now uid email code).1.resendCount = 0 ∧
    (putOTP s now uid email code).1.lastSentAt = now ∧
    (putOTP s now uid email code).1.expiresAt - now = OTP_TTL_MS ∧
    (putOTP s now uid email code).2 (keyFor uid) =
      some (RawVal.entryVal (putOTP s now uid email code).1, now + OTP_TTL_MS) := by
  have hget : Store.get (putOTP s now uid email code).2 now (keyFor uid) =
      some (RawVal.entryVal (putOTP s now uid email code).1) := by
    unfold putOTP
    rw [Store.get_setPx_self]
    have : now < now + OTP_TTL_MS := by unfold OTP_TTL_MS; omega
    simp [this]
  have hexp : now ≤ (putOTP s now uid email code).1.expiresAt := by
    unfold putOTP OTP_TTL_MS
    simp
  refine ⟨?_, rfl, rfl, rfl, by unfold putOTP; simp, ?_⟩
  · rw [getOTP_of_store_some hget hexp]
  · unfold putOTP Store.setPx
    simp

/-- Claim C3: canResend is allowed when no live entry exists; otherwise
it is denied with reason cooldown and retry time exactly
RESEND_COOLDOWN_MS - (now - lastSentAt) whenever
now - lastSentAt < RESEND_COOLDOWN_MS, regardless of resendCount; and
only outside cooldown is the limit check reached, denying with reason
limit exactly when resendCount has reached MAX_RESENDS. -/
theorem canResend_gate_spec (s : Store) (now : Int) (uid : String) :
    ((getOTP s now uid).1 = none → (canResend s now uid).1 = ResendGate.ok) ∧
    (∀ e : Entry, (getOTP s now uid).1 = some e →
      (now - e.lastSentAt < RESEND_COOLDOWN_MS →
        (canResend s now uid).1 =
          ResendGate.cooldown (RESEND_COOLDOWN_MS - (now - e.lastSentAt))) ∧
      (RESEND_COOLDOWN_MS ≤ now - e.lastSentAt →
        (canResend s now uid).1 =
          (if MAX_RESENDS ≤ e.resendCount then ResendGate.limit else ResendGate.ok))) := by
  unfold canResend
  cases hEq : getOTP s now uid with
  | mk r s1 =>
    cases r with
    | none => simp
    | some e0 =>
      refine ⟨by simp, ?_⟩
      intro e he
      simp only [Option.some.injEq] at he
      subst he
      constructor
      · intro hcd
        simp [hcd]
      · intro hcd
        have hncd : ¬ (now - e0.lastSentAt < RESEND_COOLDOWN_MS) := by omega
        by_cases hl : MAX_RESENDS ≤ e0.resendCount <;> simp [hncd, hl]

/-- Witness for C3: on the demo store at time 10 (10 ms after issuance)
the gate denies with reason cooldown and exactly 29990 ms remaining. -/
theorem canResend_gate_spec_witness :
    (canResend demoStore 10 "u1").1 = ResendGate.cooldown 29990 := by
  have h := ((canResend_gate_spec demoStore 10 "u1").2 demoEntry (by decide)).1 (by decide)
  simpa [demoEntry, RESEND_COOLDOWN_MS] using h

theorem Store.get_save_live (s : Store) (now : Int) (uid : String) (e : Entry)
    (h : now < e.expiresAt) :
    Store.get (saveOTPEntry s now uid e) now (keyFor uid) = some (RawVal.entryVal e) := by
  unfold saveOTPEntry
  have h1 : ¬ (max 0 (e.expiresAt - now) ≤ 0) := by omega
  rw [if_neg h1, Store.get_setPx_self]
  have h2 : now < now + max 0 (e.expiresAt - now) := by omega
  rw [if_pos h2]

theorem Store.get_save_inv {s : Store} {now : Int} {uid : String} {e e2 : Entry}
    (h : Store.get (saveOTPEntry s now uid e) now (keyFor uid) =
      some (RawVal.entryVal e2)) :
    e2 = e ∧ now < e.expiresAt := by
  unfold saveOTPEntry at h
  by_cases hrem : max 0 (e.expiresAt - now) ≤ 0
  · rw [if_pos hrem, Store.get_del_self] at h
    exact absurd h (by simp)
  · rw [if_neg hrem, Store.get_setPx_self] at h
    by_cases hlt : now < now + max 0 (e.expiresAt - now)
    · rw [if_pos hlt] at h
      simp only [Option.some.injEq, RawVal.entryVal.injEq] at h
      exact ⟨h.symm, by omega⟩
    · rw [if_neg hlt] at h
      exact absurd h (by simp)

/-- Claim C10: when an entry is already expired (expiresAt at or before
now), saveOTPEntry deletes the subject key instead of writing; and on
every mutation path that persists an entry (saveOTPEntry directly, the
attempts round-trip of the verify route, and markResent), any entry
visible in the store for the subject right after the operation has its
expiresAt strictly in the future — an expired entry is never stored
back. -/
theorem saveOTPEntry_never_stores_expired (s : Store) (now : Int) (uid : String) (e : Entry) :
    (e.expiresAt ≤ now → saveOTPEntry s now uid e = Store.del s (keyFor uid)) ∧
    (∀ e2 : Entry, Store.get (saveOTPEntry s now uid e) now (keyFor uid) =
        some (RawVal.entryVal e2) → now < e2.expiresAt) ∧
    (∀ e2 : Entry, Store.get (markResent s now uid) now (keyFor uid) =
        some (RawVal.entryVal e2) → now < e2.expiresAt) ∧
    (∀ (otp : String) (ok : Bool) (e2 : Entry),
      Store.get (verifyRoute s now uid otp ok).2 now (keyFor uid) =
        some (RawVal.entryVal e2) → now < e2.expiresAt) := by
  refine ⟨?_, ?_, ?_, ?_⟩
  · intro hexp
    unfold saveOTPEntry
    have : max 0 (e.expiresAt - now) ≤ 0 := by omega
    rw [if_pos this]
  · intro e2 h
    obtain ⟨he, hlt⟩ := Store.get_save_inv h
    subst he
    exact hlt
  · intro e2 h
    unfold markResent at h
    cases hEq : getOTP s now uid with
    | mk r s1 =>
      rw [hEq] at h
      cases r with
      | none =>
        have h0 : (getOTP s now uid).1 = none := by rw [hEq]
        have := getOTP_fst_none h0
        rw [hEq] at this
        simp only [this] at h
        cases h
      | some e0 =>
        obtain ⟨he, hlt⟩ := Store.get_save_inv h
        subst he
        exact hlt
  · intro otp ok e2 h
    unfold verifyRoute at h
    cases hEq : getOTP s now uid with
    | mk r s1 =>
      rw [hEq] at h
      cases r with
      | none =>
        have h0 : (getOTP s now uid).1 = none := by rw [hEq]
        have := getOTP_fst_none h0
        rw [hEq] at this
        simp only [this] at h
        cases h
      | some e0 =>
        simp only [] at h
        by_cases hcap : maxVerifyAttempts < e0.attempts + 1
        · rw [if_pos hcap] at h
          simp only [delOTP, Store.get_del_self] at h
          cases h
        · rw [if_neg hcap] at h
          by_cases hcmp : ¬ bcryptCompare otp
              ({ e0 with attempts := e0.attempts + 1 } : Entry).codeHash
          · rw [if_pos hcmp] at h
            obtain ⟨he, hlt⟩ := Store.get_save_inv h
            subst he
            exact hlt
          · rw [if_neg hcmp] at h
            by_cases hup : ¬ ok = true
            · rw [if_pos hup] at h
              obtain ⟨he, hlt⟩ := Store.get_save_inv h
              subst he
              exact hlt
            · rw [if_neg hup] at h
              simp only [delOTP, Store.get_del_self] at h
              cases h

/-- Witness for C10: at time 700000 the demo entry (expiresAt 600000) is
already expired, so persisting it deletes the subject key instead. -/
theorem saveOTPEntry_never_stores_expired_witness :
    saveOTPEntry demoStore 700000 "u1" demoEntry = Store.del demoStore (keyFor "u1") :=
  (saveOTPEntry_never_stores_expired demoStore 700000 "u1" demoEntry).1 (by decide)

/-- Counterexample to claim C8 as stated: on a store holding a malformed
value for subject u1, canResend is not mutation-free — the fetch it
performs self-heals by deleting the stored value, so the store state at
the subject key differs after the call. -/
theorem canResend_mutates_on_malformed :
    (canResend badStore 7 "u1").2 (keyFor "u1") ≠ badStore (keyFor "u1") := by
  decide

/-- Claim C8 amended: canResend itself writes nothing — its resulting
store is exactly the store its internal fetch returns — and it performs
no mutation at all whenever the subject has a live well-formed entry or
no visible stored value; the only mutation it can cause is the fetch
self-healing purge of an expired or malformed stored value. -/
theorem canResend_no_mutation (s : Store) (now : Int) (uid : String) :
    (canResend s now uid).2 = (getOTP s now uid).2 ∧
    ((∃ e : Entry, (getOTP s now uid).1 = some e) ∨
        Store.get s now (keyFor uid) = none →
      (canResend s now uid).2 = s) := by
  constructor
  · unfold canResend
    cases hEq : getOTP s now uid with
    | mk r s1 =>
      cases r with
      | none => simp
      | some e0 =>
        by_cases hcd : now - e0.lastSentAt < RESEND_COOLDOWN_MS
        · simp [hcd]
        · by_cases hl : MAX_RESENDS ≤ e0.resendCount <;> simp [hcd, hl]
  · intro h
    have hsnd : (getOTP s now uid).2 = s := by
      rcases h with ⟨e, he⟩ | habs
      · exact (getOTP_fst_some he).2.2
      · rw [getOTP_of_store_none habs]
    unfold canResend
    cases hEq : getOTP s now uid with
    | mk r s1 =>
      rw [hEq] at hsnd
      cases r with
      | none => simpa using hsnd
      | some e0 =>
        by_cases hcd : now - e0.lastSentAt < RESEND_COOLDOWN_MS
        · simpa [hcd] using hsnd
        · by_cases hl : MAX_RESENDS ≤ e0.resendCount <;> simpa [hcd, hl] using hsnd

/-- Witness for C8 amended: on the demo store with a live entry the gate
call leaves the store untouched. -/
theorem canResend_no_mutation_witness :
    (canResend demoStore 10 "u1").2 = demoStore :=
  (canResend_no_mutation demoStore 10 "u1").2 (Or.inl ⟨demoEntry, by decide⟩)

theorem getOTP_pair_of_fst_some {s : Store} {now : Int} {uid : String} {e : Entry}
    (h : (getOTP s now uid).1 = some e) :
    getOTP s now uid = (some e, s) :=
  getOTP_of_store_some (getOTP_fst_some h).1 (getOTP_fst_some h).2.1

theorem verifyRoute_eq_of_live {s : Store} {now : Int} {uid : String} {e : Entry}
    (hpair : getOTP s now uid = (some e, s)) (otp : String) (ok : Bool) :
    verifyRoute s now uid otp ok =
      (if maxVerifyAttempts < e.attempts + 1 then
        (VerifyResult.tooManyAttempts,
          delOTP (saveOTPEntry s now uid { e with attempts := e.attempts + 1 }) uid)
      else if ¬ bcryptCompare otp e.codeHash then
        (VerifyResult.invalidCode,
          saveOTPEntry s now uid { e with attempts := e.attempts + 1 })
      else if ¬ ok then
        (VerifyResult.updateFailed,
          saveOTPEntry s now uid { e with attempts := e.attempts + 1 })
      else
        (VerifyResult.success,
          delOTP (saveOTPEntry s now uid { e with attempts := e.attempts + 1 }) uid)) := by
  unfold verifyRoute
  rw [hpair]

/-- Claim C5: on a live entry with attempts still below the cap, a verify
with a non-matching code increments attempts by one, answers
invalid_code, and leaves the (updated) entry stored and fetchable — the
remaining attempts stay usable. -/
theorem verify_invalid_code_keeps_entry (s : Store) (now : Int) (uid otp : String)
    (ok : Bool) (e : Entry)
    (hlive : (getOTP s now uid).1 = some e)
    (hfresh : now < e.expiresAt)
    (hcap : e.attempts + 1 ≤ maxVerifyAttempts)
    (hmis : bcryptCompare otp e.codeHash = false) :
    (verifyRoute s now uid otp ok).1 = VerifyResult.invalidCode ∧
    (getOTP (verifyRoute s now uid otp ok).2 now uid).1 =
      some { e with attempts := e.attempts + 1 } := by
  have hpair := getOTP_pair_of_fst_some hlive
  rw [verifyRoute_eq_of_live hpair]
  have h1 : ¬ (maxVerifyAttempts < e.attempts + 1) := by omega
  rw [if_neg h1, if_pos (by simp [hmis])]
  refine ⟨rfl, ?_⟩
  have hfresh2 : now < ({ e with attempts := e.attempts + 1 } : Entry).expiresAt := hfresh
  have hget := Store.get_save_live s now uid { e with attempts := e.attempts + 1 } hfresh2
  rw [getOTP_of_store_some hget (le_of_lt hfresh2)]

/-- Witness for C5: verifying the wrong code 999999 against the demo
store answers invalid_code and keeps the entry with attempts 1. -/
theorem verify_invalid_code_keeps_entry_witness :
    (verifyRoute demoStore 10 "u1" "999999" true).1 = VerifyResult.invalidCode ∧
    (getOTP (verifyRoute demoStore 10 "u1" "999999" true).2 10 "u1").1 =
      some { demoEntry with attempts := 1 } :=
  verify_invalid_code_keeps_entry demoStore 10 "u1" "999999" true demoEntry
    (by decide) (by decide) (by decide) (by decide)

/-- Claim C4: a verify with the matching code does not itself delete the
entry; deletion happens only after the downstream password mutation
succeeds.  When the mutation fails the route answers with the failure and
the entry (with its incremented attempts, same code hash, same expiry)
stays stored and fetchable for a retry; when the mutation succeeds the
route answers success and only then is the subject key deleted. -/
theorem verify_match_deletes_only_after_update (s : Store) (now : Int) (uid otp : String)
    (e : Entry)
    (hlive : (getOTP s now uid).1 = some e)
    (hfresh : now < e.expiresAt)
    (hcap : e.attempts + 1 ≤ maxVerifyAttempts)
    (hmatch : bcryptCompare otp e.codeHash = true) :
    ((verifyRoute s now uid otp false).1 = VerifyResult.updateFailed ∧
      (getOTP (verifyRoute s now uid otp false).2 now uid).1 =
        some { e with attempts := e.attempts + 1 }) ∧
    ((verifyRoute s now uid otp true).1 = VerifyResult.success ∧
      (verifyRoute s now uid otp true).2 (keyFor uid) = none) := by
  have hpair := getOTP_pair_of_fst_some hlive
  have h1 : ¬ (maxVerifyAttempts < e.attempts + 1) := by omega
  have h2 : ¬ ¬ bcryptCompare otp e.codeHash := by simp [hmatch]
  constructor
  · rw [verifyRoute_eq_of_live hpair]
    rw [if_neg h1, if_neg h2, if_pos (by simp)]
    refine ⟨rfl, ?_⟩
    have hfresh2 : now < ({ e with attempts := e.attempts + 1 } : Entry).expiresAt := hfresh
    have hget := Store.get_save_live s now uid { e with attempts := e.attempts + 1 } hfresh2
    rw [getOTP_of_store_some hget (le_of_lt hfresh2)]
  · rw [verifyRoute_eq_of_live hpair]
    rw [if_neg h1, if_neg h2, if_neg (by simp)]
    exact ⟨rfl, by simp [delOTP, Store.del]⟩

/-- Witness for C4: verifying the right code 123456 against the demo
store with a failing password mutation keeps the entry; with a succeeding
mutation it succeeds and the key is gone. -/
theorem verify_match_deletes_only_after_update_witness :
    ((verifyRoute demoStore 10 "u1" "123456" false).1 = VerifyResult.updateFailed ∧
      (getOTP (verifyRoute demoStore 10 "u1" "123456" false).2 10 "u1").1 =
        some { demoEntry with attempts := 1 }) ∧
    ((verifyRoute demoStore 10 "u1" "123456" true).1 = VerifyResult.success ∧
      (verifyRoute demoStore 10 "u1" "123456" true).2 (keyFor "u1") = none) :=
  verify_match_deletes_only_after_update demoStore 10 "u1" "123456" demoEntry
    (by decide) (by decide) (by decide) (by decide)

/-- Claim C1: on a live entry, verify increments attempts, and once the
incremented count exceeds maxVerifyAttempts the subject key is deleted
and the answer is too_many_attempts; from then on the key stays absent,
so every subsequent verify for that subject answers expired and keeps the
key absent (fail-closed). -/
theorem verify_attempt_cap_fail_closed (s : Store) (now : Int) (uid otp : String)
    (ok : Bool) (e : Entry)
    (hlive : (getOTP s now uid).1 = some e)
    (hcap : maxVerifyAttempts < e.attempts + 1) :
    (verifyRoute s now uid otp ok).1 = VerifyResult.tooManyAttempts ∧
    (verifyRoute s now uid otp ok).2 (keyFor uid) = none ∧
    (∀ (s3 : Store) (t : Int) (otp2 : String) (ok2 : Bool),
      s3 (keyFor uid) = none →
      (verifyRoute s3 t uid otp2 ok2).1 = VerifyResult.expired ∧
      (verifyRoute s3 t uid otp2 ok2).2 (keyFor uid) = none) := by
  have hpair := getOTP_pair_of_fst_some hlive
  rw [verifyRoute_eq_of_live hpair, if_pos hcap]
  refine ⟨rfl, by simp [delOTP, Store.del], ?_⟩
  intro s3 t otp2 ok2 h3
  have hg : Store.get s3 t (keyFor uid) = none := by
    unfold Store.get
    rw [h3]
  have hp := getOTP_of_store_none hg
  unfold verifyRoute
  rw [hp]
  exact ⟨rfl, h3⟩

/-- Witness for C1: a demo entry that has already burned 5 attempts is
deleted by the sixth verify, which answers too_many_attempts, and a
further verify answers expired. -/
theorem verify_attempt_cap_fail_closed_witness :
    (verifyRoute
        (fun k => if k = keyFor "u1" then
          some (RawVal.entryVal { demoEntry with attempts := 5 }, 600000) else none)
        10 "u1" "123456" true).1 = VerifyResult.tooManyAttempts ∧
    (verifyRoute
        (verifyRoute
          (fun k => if k = keyFor "u1" then
            some (RawVal.entryVal { demoEntry with attempts := 5 }, 600000) else none)
          10 "u1" "123456" true).2
        20 "u1" "123456" true).1 = VerifyResult.expired := by
  have h := verify_attempt_cap_fail_closed
    (fun k => if k = keyFor "u1" then
      some (RawVal.entryVal { demoEntry with attempts := 5 }, 600000) else none)
    10 "u1" "123456" true { demoEntry with attempts := 5 } (by decide) (by decide)
  exact ⟨h.1, (h.2.2 _ 20 "123456" true h.2.1).1⟩

theorem digitChar_ne_zero {d : Nat} (hd : d < 10) (hnz : d ≠ 0) :
    Nat.digitChar d ≠ '0' := by
  interval_cases d <;> revert hnz <;> decide

theorem decimalString_head_ne_zero {n : Nat} (hn : n ≠ 0) :
    ((Nat.digits 10 n).reverse.map Nat.digitChar).head? ≠ some '0' := by
  have hne : Nat.digits 10 n ≠ [] := Nat.digits_ne_nil_iff_ne_zero.mpr hn
  rw [List.head?_map, List.head?_reverse, List.getLast?_eq_getLast_of_ne_nil hne]
  have hlast : (Nat.digits 10 n).getLast hne ≠ 0 := Nat.getLast_digit_ne_zero 10 hn
  have hlt : (Nat.digits 10 n).getLast hne < 10 :=
    Nat.digits_lt_base (by norm_num) (List.getLast_mem hne)
  exact fun hc => digitChar_ne_zero hlt hlast (by simpa using hc)

theorem decimalString_length_six {n : Nat} (h1 : 100000 ≤ n) (h2 : n ≤ 999999) :
    (decimalString n).length = 6 := by
  have hn : n ≠ 0 := by omega
  have hlog : Nat.log 10 n = 5 :=
    Nat.log_eq_of_pow_le_of_lt_pow (by norm_num; omega) (by norm_num; omega)
  unfold decimalString
  simp [String.length, Nat.digits_len 10 n (by norm_num) hn, hlog]

set_option maxRecDepth 8192 in
/-- Counterexample to claim C7 as stated: the zero-padded string 000000
is never a generated code — the generator draws
Math.floor(100000 + Math.random() * 900000), whose value is at least
100000, so no code has a leading zero. -/
theorem otpCode_zero_string_impossible : ¬ ∃ m : Nat, otpCode m = "000000" := by
  rintro ⟨m, h⟩
  have hv : otpCodeVal m ≠ 0 := by unfold otpCodeVal randFloor; omega
  apply decimalString_head_ne_zero hv
  have hdata : ((Nat.digits 10 (otpCodeVal m)).reverse.map Nat.digitChar) =
      "000000".data := by
    have := congrArg String.data h
    exact this
  rw [hdata]
  decide

/-- Claim C7 amended: issuance generates the decimal rendering of
100000 + floor(random * 900000): every generated code is a 6-character
string whose numeric value lies in 100000..999999, and every value in
that range is reachable; zero-padded strings below 100000 (such as
000000) are never produced. -/
theorem otpCode_range (m : Nat) :
    100000 ≤ otpCodeVal m ∧ otpCodeVal m ≤ 999999 ∧ (otpCode m).length = 6 ∧
    (∀ v : Nat, 100000 ≤ v → v ≤ 999999 →
      ∃ m2 : Nat, otpCode m2 = decimalString v) := by
  have h1 : 100000 ≤ otpCodeVal m := by unfold otpCodeVal; omega
  have h2 : otpCodeVal m ≤ 999999 := by
    unfold otpCodeVal randFloor
    have := Nat.mod_lt m (y := 900000) (by norm_num)
    omega
  refine ⟨h1, h2, decimalString_length_six h1 h2, ?_⟩
  intro v hv1 hv2
  refine ⟨v - 100000, ?_⟩
  unfold otpCode otpCodeVal randFloor
  have hval : 100000 + (v - 100000) % 900000 = v := by omega
  rw [hval]

/-- Witness for C7 amended: the draw 0 yields the 6-character code
100000, and the value 123456 is reachable. -/
theorem otpCode_range_witness :
    (otpCode 0).length = 6 ∧ ∃ m2 : Nat, otpCode m2 = decimalString 123456 :=
  ⟨(otpCode_range 0).2.2.1,
    (otpCode_range 0).2.2.2 123456 (by norm_num) (by norm_num)⟩

/-- Claim C6: on a live entry, markResent increments resendCount by one,
sets lastSentAt to now, leaves every other field (email, codeHash,
attempts, expiresAt) unchanged, and persists under the subject key with
the entry's remaining TTL — the redis expiry instant stays exactly the
original expiresAt, never extended or reset. -/
theorem markResent_frame (s : Store) (now : Int) (uid : String) (e : Entry)
    (hlive : (getOTP s now uid).1 = some e)
    (hfresh : now < e.expiresAt) :
    markResent s now uid (keyFor uid) =
      some (RawVal.entryVal
        { e with resendCount := e.resendCount + 1, lastSentAt := now },
        e.expiresAt) := by
  have hpair := getOTP_pair_of_fst_some hlive
  unfold markResent
  rw [hpair]
  unfold saveOTPEntry
  dsimp only
  have h1 : ¬ (max 0
      (({ e with resendCount := e.resendCount + 1, lastSentAt := now } : Entry).expiresAt
        - now) ≤ 0) := by
    show ¬ (max 0 (e.expiresAt - now) ≤ 0)
    omega
  rw [if_neg h1]
  unfold Store.setPx
  simp only [if_pos rfl]
  have h2 : now + max 0
      (({ e with resendCount := e.resendCount + 1, lastSentAt := now } : Entry).expiresAt
        - now) = e.expiresAt := by
    show now + max 0 (e.expiresAt - now) = e.expiresAt
    omega
  rw [h2]
  simp

/-- Witness for C6: marking the demo entry resent at time 10 stores it
with resendCount 1, lastSentAt 10, and the untouched expiry 600000. -/
theorem markResent_frame_witness :
    markResent demoStore 10 "u1" (keyFor "u1") =
      some (RawVal.entryVal
        { demoEntry with resendCount := 1, lastSentAt := 10 }, 600000) :=
  markResent_frame demoStore 10 "u1" demoEntry (by decide) (by decide)

end Foddie
